import Mathlib

/-!
Verification of the procurement-disclosure scraper (`src/scraper.py`).

The source is a single Python module.  We shallowly embed its data model and
operations:

* XML documents become the inductive `Xml` tree; the `ElementTree` operations
  used by the code (`find` on a direct-child tag, `find`/`findall` on a
  two-segment path `./a/b`, `findall(".//tag")` over all descendants) become
  executable Lean functions with the same document-order semantics.
* Python exceptions become `Except PyErr`; a bare `return` / `None` return
  code becomes `none : Option Nat`.
* The network is a pure oracle `World := String → Fetched`; the recursive
  crawl `process_xml_link` is embedded with explicit fuel, returning the
  return code, the flat list of CSV rows appended, and the trace of URLs
  fetched (in fetch order).
* Python list mutation/aliasing questions are settled against a store-passing
  variant of `update_csv` in which lists live in an explicit heap.
-/

/-- An XML element: tag, text content (`None` in Python when absent), children
in document order. -/
inductive Xml where
  | elem : String → Option String → List Xml → Xml

def Xml.tagOf : Xml → String
  | .elem t _ _ => t

def Xml.text : Xml → Option String
  | .elem _ tx _ => tx

def Xml.children : Xml → List Xml
  | .elem _ _ cs => cs

mutual
/-- All descendants of an element (the element itself excluded) carrying the
given tag, in document order: `root.findall(".//tag")`. -/
def descendantsWithTag (tag : String) : Xml → List Xml
  | .elem _ _ cs => descendantsWithTagList tag cs

def descendantsWithTagList (tag : String) : List Xml → List Xml
  | [] => []
  | c :: cs =>
      (if c.tagOf = tag then [c] else [])
        ++ descendantsWithTag tag c ++ descendantsWithTagList tag cs
end

/-- `element.find(tag)`: first direct child with the given tag, else `None`. -/
def Xml.findChild (x : Xml) (tag : String) : Option Xml :=
  x.children.find? (fun c => c.tagOf == tag)

/-- `element.findall("./a/b")`: for each direct child tagged `a` in order, its
direct children tagged `b`, concatenated (ElementTree `iterfind` order). -/
def findallPath2 (x : Xml) (a b : String) : List Xml :=
  (x.children.filter (fun c => c.tagOf == a)).flatMap
    (fun e => e.children.filter (fun c => c.tagOf == b))

/-- `element.find("./a/b")`: first match of the path, else `None`. -/
def findPath2 (x : Xml) (a b : String) : Option Xml :=
  (findallPath2 x a b).head?

/-- `root.find(".//tag") is not None`: the document has some descendant with
the given tag. -/
def hasDescendant (tag : String) (x : Xml) : Bool :=
  !(descendantsWithTag tag x).isEmpty

/-- `ATTRIBUTE_VOCABULARY.get(attribute_name, [attribute_name])`: the source
dictionary has the single key `"codiceFiscale"`; any other name falls back to
the singleton default. -/
def ATTRIBUTE_VOCABULARY (attribute_name : String) : List String :=
  if attribute_name = "codiceFiscale" then
    ["codiceFiscale", "identificativoFiscaleEstero"]
  else [attribute_name]

/-- The loop body of `get_attribute_value`: try each variant tag in order; on
the first variant present as a direct child, return that child's text (which
may itself be `None`); if no variant matches, return `None`. -/
def get_attribute_value_go (element : Xml) : List String → Option String
  | [] => none
  | v :: vs =>
      match element.findChild v with
      | some e => e.text
      | none => get_attribute_value_go element vs

/-- `get_attribute_value(element, attribute_name)` from `src/scraper.py`. -/
def get_attribute_value (element : Xml) (attribute_name : String) : Option String :=
  get_attribute_value_go element (ATTRIBUTE_VOCABULARY attribute_name)

/-- One parsed lot tuple `(ente, cf_ente, cig, partecipanti, aggiudicatari)`
as built by `parse_lotto_xml`.  Texts are `Option String` because Python
element text can be `None`, and participant identifiers come through
`get_attribute_value`, which can return `None`. -/
structure LotRecord where
  ente : Option String
  cf_ente : Option String
  cig : Option String
  partecipanti : List (Option String)
  aggiudicatari : List (Option String)
deriving DecidableEq, Repr

/-- One CSV row written by `update_csv`:
`[ente, cf_ente, cig, partecipante, winner]`. -/
structure OutputRow where
  ente : Option String
  cf_ente : Option String
  cig : Option String
  partecipante : Option String
  winner : Nat
deriving DecidableEq, Repr

/-- The rows `update_csv` appends for a single lot tuple: if there is a winner
but no participant, the winner list stands in for the participant list; one
row per participant, `winner = 1` iff the participant occurs in
`aggiudicatari`. -/
def rowsForLot (r : LotRecord) : List OutputRow :=
  let partecipanti :=
    if r.aggiudicatari.length > 0 ∧ r.partecipanti.length = 0 then
      r.aggiudicatari
    else r.partecipanti
  partecipanti.map (fun p =>
    ⟨r.ente, r.cf_ente, r.cig, p, if p ∈ r.aggiudicatari then 1 else 0⟩)

/-- `update_csv(csv_filename, data)`: the full sequence of rows appended to
the CSV for the parsed data, in order. -/
def update_csv (data : List LotRecord) : List OutputRow :=
  data.flatMap rowsForLot

/-- Claim C1: for every lot whose participants list is non-empty, `update_csv`
emits exactly one row per participant, in document order, carrying the lot's
entity name, entity tax id and award id, with winner flag 1 iff that
participant's identifier is a member of the awardees list (duplicates each
yielding their own row). -/
theorem update_csv_nonempty_participants (r : LotRecord)
    (h : r.partecipanti ≠ []) :
    update_csv [r] =
      r.partecipanti.map (fun p =>
        ⟨r.ente, r.cf_ente, r.cig, p,
          if p ∈ r.aggiudicatari then 1 else 0⟩) := by
  have hlen : ¬ (r.aggiudicatari.length > 0 ∧ r.partecipanti.length = 0) := by
    rintro ⟨-, h0⟩
    exact h (List.length_eq_zero.mp h0)
  simp only [update_csv, rowsForLot, List.flatMap_cons, List.flatMap_nil,
    List.append_nil, if_neg hlen]

/-- Witness for C1 at a concrete lot with participants `[A, B]` and awardees
`[B]`: rows `(…, A, 0)` then `(…, B, 1)`. -/
theorem update_csv_nonempty_participants_witness :
    update_csv [⟨some "E", some "CF", some "CIG", [some "A", some "B"], [some "B"]⟩] =
      [⟨some "E", some "CF", some "CIG", some "A", 0⟩,
       ⟨some "E", some "CF", some "CIG", some "B", 1⟩] := by
  have h := update_csv_nonempty_participants
    ⟨some "E", some "CF", some "CIG", [some "A", some "B"], [some "B"]⟩
    (by decide)
  rw [h]
  decide

/-- Claim C2: for every lot whose participants list is empty and whose
awardees list is non-empty, `update_csv` treats the awardees as the
participants and emits exactly one row per awardee, each with winner flag 1,
in awardee order. -/
theorem update_csv_implicit_participants (r : LotRecord)
    (hp : r.partecipanti = []) (ha : r.aggiudicatari ≠ []) :
    update_csv [r] =
      r.aggiudicatari.map (fun a => ⟨r.ente, r.cf_ente, r.cig, a, 1⟩) := by
  have hlen : r.aggiudicatari.length > 0 ∧ r.partecipanti.length = 0 := by
    constructor
    · exact List.length_pos.mpr ha
    · simp [hp]
  simp only [update_csv, rowsForLot, List.flatMap_cons, List.flatMap_nil,
    List.append_nil, if_pos hlen]
  exact List.map_congr_left (fun a hmem => by simp [hmem])

/-- Witness for C2 at a concrete lot with no participants and awardees
`[X, Y]`: rows `(…, X, 1)` then `(…, Y, 1)`. -/
theorem update_csv_implicit_participants_witness :
    update_csv [⟨some "E", some "CF", some "CIG", [], [some "X", some "Y"]⟩] =
      [⟨some "E", some "CF", some "CIG", some "X", 1⟩,
       ⟨some "E", some "CF", some "CIG", some "Y", 1⟩] := by
  have h := update_csv_implicit_participants
    ⟨some "E", some "CF", some "CIG", [], [some "X", some "Y"]⟩
    rfl (by decide)
  rw [h]
  decide

/-- Claim C7: `get_attribute_value` tries the vocabulary synonyms for
`"codiceFiscale"` in their configured order and returns the text of the first
synonym present as a child, or `None` if no synonym matches; in particular an
element exposing only the secondary synonym yields that secondary tag's text,
and an element exposing the primary synonym yields the primary's text. -/
theorem get_attribute_value_vocabulary_order (element : Xml) :
    ((∀ v ∈ ATTRIBUTE_VOCABULARY "codiceFiscale", element.findChild v = none) →
        get_attribute_value element "codiceFiscale" = none)
    ∧ (∀ e s, element.findChild "codiceFiscale" = none →
        element.findChild "identificativoFiscaleEstero" = some e →
        e.text = some s →
        get_attribute_value element "codiceFiscale" = some s)
    ∧ (∀ e, element.findChild "codiceFiscale" = some e →
        get_attribute_value element "codiceFiscale" = e.text) := by
  refine ⟨?_, ?_, ?_⟩
  · intro hall
    have h1 := hall "codiceFiscale" (by simp [ATTRIBUTE_VOCABULARY])
    have h2 := hall "identificativoFiscaleEstero" (by simp [ATTRIBUTE_VOCABULARY])
    simp [get_attribute_value, ATTRIBUTE_VOCABULARY, get_attribute_value_go, h1, h2]
  · intro e s h1 h2 h3
    simp [get_attribute_value, ATTRIBUTE_VOCABULARY, get_attribute_value_go, h1, h2, h3]
  · intro e h1
    simp [get_attribute_value, ATTRIBUTE_VOCABULARY, get_attribute_value_go, h1]

/-- Witness for C7: a participant element exposing only the secondary tag
`identificativoFiscaleEstero` (text `"Z9"`) yields identifier `"Z9"`. -/
theorem get_attribute_value_vocabulary_order_witness :
    get_attribute_value
      (Xml.elem "partecipante" none
        [Xml.elem "identificativoFiscaleEstero" (some "Z9") []])
      "codiceFiscale" = some "Z9" := by
  exact (get_attribute_value_vocabulary_order
      (Xml.elem "partecipante" none
        [Xml.elem "identificativoFiscaleEstero" (some "Z9") []])).2.1
    (Xml.elem "identificativoFiscaleEstero" (some "Z9") []) "Z9"
    rfl rfl rfl

/-- Python-level exceptions relevant to the embedded control flow. -/
inductive PyErr where
  | attributeError
  | nameError
deriving DecidableEq, Repr

/-- The body of the `for lotto` loop in `parse_lotto_xml` for a single lot:
`lotto.find(path).text` raises `AttributeError` when the `find` returns
`None`; the participant and awardee identifier lists go through
`get_attribute_value`. -/
def extractLot (lotto : Xml) : Except PyErr LotRecord :=
  match findPath2 lotto "strutturaProponente" "denominazione" with
  | none => .error .attributeError
  | some eNome =>
    match findPath2 lotto "strutturaProponente" "codiceFiscaleProp" with
    | none => .error .attributeError
    | some eCf =>
      match lotto.findChild "cig" with
      | none => .error .attributeError
      | some eCig =>
        .ok
          { ente := eNome.text
            cf_ente := eCf.text
            cig := eCig.text
            partecipanti :=
              (findallPath2 lotto "partecipanti" "partecipante").map
                (fun p => get_attribute_value p "codiceFiscale")
            aggiudicatari :=
              (findallPath2 lotto "aggiudicatari" "aggiudicatario").map
                (fun a => get_attribute_value a "codiceFiscale") }

/-- The accumulation loop of `parse_lotto_xml`: lots are extracted in order
and an exception on any lot propagates, discarding the results built so
far. -/
def parseLots : List Xml → Except PyErr (List LotRecord)
  | [] => .ok []
  | l :: ls =>
      match extractLot l with
      | .error e => .error e
      | .ok r =>
          match parseLots ls with
          | .error e => .error e
          | .ok rs => .ok (r :: rs)

/-- `parse_lotto_xml(xml_content)` on an already well-formed document: iterate
over `root.findall(".//lotto")` extracting each lot.  An `AttributeError`
raised by a lot with a missing mandatory field escapes this function (its
`except` clause only catches `ET.ParseError`). -/
def parse_lotto_xml (root : Xml) : Except PyErr (List LotRecord) :=
  parseLots (descendantsWithTag "lotto" root)

/-- What the network oracle yields for a URL: a transport/HTTP failure after
retries, a response whose body is not well-formed XML (`ET.fromstring`
raises `ParseError`), or a well-formed document. -/
inductive Fetched where
  | netErr
  | doc : Option Xml → Fetched

/-- The pure network oracle. -/
abbrev World := String → Fetched

/-- `linkDataset` texts found in a dataset document:
`[link.text for link in root.findall(".//linkDataset")]`. -/
def datasetLinks (root : Xml) : List (Option String) :=
  (descendantsWithTag "linkDataset" root).map Xml.text

/-- `process_xml_link(xml_link, csv_filename)` with explicit fuel for the
dataset recursion.  Returns the Python return code (`none` both for the bare
`return` on an unrecognized schema and on fuel exhaustion), the rows appended
to the output CSV, and the trace of URLs fetched, in fetch order.

Faithful points: a dataset link equal to the dataset's own URL
(`parent_xml_link` at the call site is the current `xml_link`) is skipped;
a `None` link text reaches `requests.get(None)`, which raises and yields
return code 1 without a fetch; `process_dataset_xml` returns `None`, so a
dataset URL itself always gets return code 0 regardless of its children;
a parsed-but-empty lot list is falsy, so `update_csv` is skipped but the
return code is still 0. -/
abbrev ProcResult := Option Nat × List OutputRow × List String

/-- The recursive call `process_xml_link(link, csv_filename)` made from
`process_dataset_xml` for one non-skipped link text, parametrized by the
recursive entry point: a `None` link text makes `requests.get(None)` raise
immediately (return code 1, nothing fetched). -/
def processChildWith (rec : String → ProcResult) : Option String → ProcResult
  | none => (some 1, [], [])
  | some u => rec u

/-- One unfolding of `process_xml_link` on the fetch outcome for `url`,
parametrized by the recursive entry point used for dataset links. -/
def processStep (rec : String → ProcResult) (url : String) : Fetched → ProcResult
  | .netErr => (some 1, [], [url])
  | .doc none => (some 2, [], [url])
  | .doc (some root) =>
    if hasDescendant "lotto" root then
      match parse_lotto_xml root with
      | .error _ => (some 2, [], [url])
      | .ok data => (some 0, update_csv data, [url])
    else if hasDescendant "dataset" root then
      let results :=
        ((datasetLinks root).filter (fun l => l ≠ some url)).map (processChildWith rec)
      (some 0, results.flatMap (fun r => r.2.1), url :: results.flatMap (fun r => r.2.2))
    else (none, [], [url])

def processXmlLink : Nat → World → String → ProcResult
  | 0, _, _ => (none, [], [])
  | fuel + 1, world, url => processStep (processXmlLink fuel world) url (world url)

lemma parseLots_error_of_mem :
    ∀ ls : List Xml, (∃ l ∈ ls, ∃ e, extractLot l = .error e) →
      ∃ e, parseLots ls = .error e := by
  intro ls h
  induction ls with
  | nil => rcases h with ⟨l, hl, -⟩; cases hl
  | cons a as ih =>
    rcases h with ⟨l, hl, e, he⟩
    rcases List.mem_cons.mp hl with rfl | hmem
    · exact ⟨e, by simp [parseLots, he]⟩
    · cases hex : extractLot a with
      | error e2 => exact ⟨e2, by simp [parseLots, hex]⟩
      | ok r =>
          rcases ih ⟨l, hmem, e, he⟩ with ⟨e3, h3⟩
          exact ⟨e3, by simp [parseLots, hex, h3]⟩

/-- Claim C3 (amended): a lot element with a missing mandatory field raises an
error that escapes `parse_lotto_xml` and aborts extraction of the entire
document: no rows are emitted for any lot of that document (sibling lots
included) and the URL gets return code 2. -/
theorem missing_field_skips_whole_document (fuel : Nat) (world : World)
    (url : String) (root : Xml)
    (hw : world url = .doc (some root))
    (hbad : ∃ l ∈ descendantsWithTag "lotto" root, ∃ e, extractLot l = .error e) :
    processXmlLink (fuel + 1) world url = (some 2, [], [url]) := by
  have hne : descendantsWithTag "lotto" root ≠ [] := by
    rcases hbad with ⟨l, hm, -⟩; exact List.ne_nil_of_mem hm
  have hl : hasDescendant "lotto" root = true := by
    unfold hasDescendant
    cases hlist : descendantsWithTag "lotto" root with
    | nil => exact absurd hlist hne
    | cons a as => rfl
  obtain ⟨e, he⟩ := parseLots_error_of_mem _ hbad
  have hp : parse_lotto_xml root = .error e := he
  simp [processXmlLink, processStep, hw, hl, hp]

/-- A complete lot element (entity `E`, tax id `CF`, award `CIG1`, one
participant `A` who is also the awardee). -/
def lottoGood : Xml :=
  Xml.elem "lotto" none
    [Xml.elem "strutturaProponente" none
      [Xml.elem "denominazione" (some "E") [],
       Xml.elem "codiceFiscaleProp" (some "CF") []],
     Xml.elem "cig" (some "CIG1") [],
     Xml.elem "partecipanti" none
       [Xml.elem "partecipante" none [Xml.elem "codiceFiscale" (some "A") []]],
     Xml.elem "aggiudicatari" none
       [Xml.elem "aggiudicatario" none [Xml.elem "codiceFiscale" (some "A") []]]]

/-- A sibling lot element lacking the mandatory `cig` child. -/
def lottoBad : Xml :=
  Xml.elem "lotto" none
    [Xml.elem "strutturaProponente" none
      [Xml.elem "denominazione" (some "E") [],
       Xml.elem "codiceFiscaleProp" (some "CF") []]]

/-- A lot document holding a complete lot followed by a lot missing `cig`. -/
def docC3 : Xml := Xml.elem "root" none [lottoGood, lottoBad]

def worldC3 : World := fun _ => .doc (some docC3)

/-- Counterexample to claim C3 as stated: in a document whose second lot lacks
the mandatory `cig`, the complete sibling lot is NOT still extracted — the
whole document fails with return code 2 and zero rows, although the sibling
alone parses fine and would have emitted a row. -/
theorem lot_error_discards_siblings :
    processXmlLink 1 worldC3 "u" = (some 2, [], ["u"])
      ∧ extractLot lottoGood =
          .ok ⟨some "E", some "CF", some "CIG1", [some "A"], [some "A"]⟩
      ∧ update_csv [⟨some "E", some "CF", some "CIG1", [some "A"], [some "A"]⟩] ≠ [] := by
  refine ⟨rfl, rfl, ?_⟩
  decide

/-- Witness for the amended C3 theorem at the concrete two-lot document. -/
theorem missing_field_skips_whole_document_witness :
    processXmlLink 1 worldC3 "u" = (some 2, [], ["u"]) :=
  missing_field_skips_whole_document 0 worldC3 "u" docC3 rfl
    ⟨lottoBad,
      show lottoBad ∈ [lottoGood, lottoBad] from
        List.mem_cons_of_mem _ (List.mem_cons_self _ _),
      .attributeError, rfl⟩

/-- Claim C6: a well-formed document with neither a `lotto` nor a `dataset`
descendant yields zero output rows, raises no error, and returns the Python
`None` return code (the bare `return`), which is distinct from the success
code 0. -/
theorem processXmlLink_unrecognized (fuel : Nat) (world : World) (url : String)
    (root : Xml)
    (hw : world url = .doc (some root))
    (hl : hasDescendant "lotto" root = false)
    (hd : hasDescendant "dataset" root = false) :
    processXmlLink (fuel + 1) world url = (none, [], [url])
      ∧ (processXmlLink (fuel + 1) world url).1 ≠ some 0 := by
  have h : processXmlLink (fuel + 1) world url = (none, [], [url]) := by
    simp [processXmlLink, processStep, hw, hl, hd]
  refine ⟨h, ?_⟩
  rw [h]
  simp

def unknownDoc : Xml := Xml.elem "foo" none [Xml.elem "bar" none []]

def worldUnknown : World := fun _ => .doc (some unknownDoc)

/-- Witness for C6 at a concrete two-element document matching no schema. -/
theorem processXmlLink_unrecognized_witness :
    processXmlLink 1 worldUnknown "u" = (none, [], ["u"])
      ∧ (processXmlLink 1 worldUnknown "u").1 ≠ some 0 :=
  processXmlLink_unrecognized 0 worldUnknown "u" unknownDoc rfl (by decide) (by decide)

lemma processXmlLink_dataset_eq (fuel : Nat) (world : World)
    (url : String) (root : Xml)
    (hw : world url = .doc (some root))
    (hl : hasDescendant "lotto" root = false)
    (hd : hasDescendant "dataset" root = true) :
    processXmlLink (fuel + 1) world url =
      (some 0,
        ((datasetLinks root).filter (fun l => l ≠ some url)).flatMap
          (fun l => (processChildWith (processXmlLink fuel world) l).2.1),
        url :: ((datasetLinks root).filter (fun l => l ≠ some url)).flatMap
          (fun l => (processChildWith (processXmlLink fuel world) l).2.2)) := by
  simp [processXmlLink, processStep, hw, hl, hd, List.flatMap_map]

/-- Claim C5 (amended): while expanding a dataset document fetched from `url`,
the crawler recurses exactly on the links whose text differs from the
dataset's OWN url (the `parent_xml_link` argument is the current `xml_link`,
not the referrer): a self-link is skipped, but a link back to the URL that
referenced the dataset is not skipped and is fetched again. -/
theorem processXmlLink_dataset_skips_own_url (fuel : Nat) (world : World)
    (url : String) (root : Xml)
    (hw : world url = .doc (some root))
    (hl : hasDescendant "lotto" root = false)
    (hd : hasDescendant "dataset" root = true) :
    processXmlLink (fuel + 1) world url =
      (some 0,
        ((datasetLinks root).filter (fun l => l ≠ some url)).flatMap
          (fun l => (processChildWith (processXmlLink fuel world) l).2.1),
        url :: ((datasetLinks root).filter (fun l => l ≠ some url)).flatMap
          (fun l => (processChildWith (processXmlLink fuel world) l).2.2)) :=
  processXmlLink_dataset_eq fuel world url root hw hl hd

/-- A dataset document whose single `linkDataset` entry points at `target`. -/
def dsDoc (target : String) : Xml :=
  Xml.elem "root" none
    [Xml.elem "dataset" none [Xml.elem "linkDataset" (some target) []]]

/-- World for the parent/child cycle: dataset `p` links to `d`, dataset `d`
links back to its referrer `p`. -/
def worldC5 : World := fun u =>
  if u = "p" then .doc (some (dsDoc "d"))
  else if u = "d" then .doc (some (dsDoc "p")) else .netErr

/-- Witness for the amended C5 theorem at the concrete dataset `p`. -/
theorem processXmlLink_dataset_skips_own_url_witness :
    processXmlLink 4 worldC5 "p" =
      (some 0,
        ((datasetLinks (dsDoc "d")).filter (fun l => l ≠ some "p")).flatMap
          (fun l => (processChildWith (processXmlLink 3 worldC5) l).2.1),
        "p" :: ((datasetLinks (dsDoc "d")).filter (fun l => l ≠ some "p")).flatMap
          (fun l => (processChildWith (processXmlLink 3 worldC5) l).2.2)) :=
  processXmlLink_dataset_skips_own_url 3 worldC5 "p" (dsDoc "d") rfl
    (by decide) (by decide)

/-- Counterexample to claim C5 as stated: dataset `d` was referenced by `p`
(its parent), and `d` links back to `p`; resolving the branch rooted at `p`
fetches `p` twice — the immediate parent IS re-fetched from within `d`'s
expansion, because the code only skips links equal to the dataset's own URL. -/
theorem dataset_refetches_parent :
    (processXmlLink 4 worldC5 "p").2.2 = ["p", "d", "p", "d"]
      ∧ ((processXmlLink 4 worldC5 "p").2.2).count "p" = 2 := by
  exact ⟨rfl, rfl⟩

/-- A transport or HTTP failure inside `requests.get` /
`raise_for_status`. -/
inductive NetErr where
  | requestException
deriving DecidableEq, Repr

/-- The retry configuration of the `@retry` decorator on `make_request`. -/
structure RetryPolicy where
  stop_max_attempt_number : Nat
  wait_fixed : Nat
  stop_max_delay : Nat

/-- `@retry(stop_max_attempt_number=3, wait_fixed=1000, stop_max_delay=5000)`
on `make_request`. -/
def makeRequestPolicy : RetryPolicy := ⟨3, 1000, 5000⟩

/-- The `retrying` loop, idealized to zero request duration: run attempt `n`
(1-based); on success stop; on failure, re-raise if the attempt count has
reached `stop_max_attempt_number` or the elapsed wait time has reached
`stop_max_delay`, otherwise sleep `wait_fixed` milliseconds and retry.
Returns the result, the number of attempts made, and the total sleep time.
The `fuel` bound is spare: the stop conditions terminate first whenever
`fuel ≥ stop_max_attempt_number`. -/
def retryAux {α : Type} (pol : RetryPolicy) (req : Nat → Except NetErr α) :
    Nat → Nat → Nat → Except NetErr α × Nat × Nat
  | fuel, n, elapsed =>
    match req n with
    | .ok a => (.ok a, n, elapsed)
    | .error e =>
      if pol.stop_max_attempt_number ≤ n ∨ pol.stop_max_delay ≤ elapsed then
        (.error e, n, elapsed)
      else
        match fuel with
        | 0 => (.error e, n, elapsed)
        | fuel + 1 => retryAux pol req fuel (n + 1) (elapsed + pol.wait_fixed)

/-- `make_request(xml_link)` as seen through its retry decorator: the
underlying attempts are the oracle `req`. -/
def retryCall {α : Type} (pol : RetryPolicy) (req : Nat → Except NetErr α) :
    Except NetErr α × Nat × Nat :=
  retryAux pol req pol.stop_max_attempt_number 1 0

/-- Claim C8: for a URL whose every request attempt fails, `make_request`
makes exactly 3 attempts separated by fixed 1000 ms sleeps (2000 ms of sleep
in total, inside the 5000 ms total-delay cap of the policy) before letting
the request exception surface, and `process_xml_link` maps the surfaced
network failure to return code 1 with no rows. -/
theorem make_request_retry_then_fail {α : Type} (req : Nat → Except NetErr α)
    (hfail : ∀ n, req n = .error .requestException)
    (fuel : Nat) (world : World) (url : String)
    (hw : world url = .netErr) :
    retryCall makeRequestPolicy req = (.error .requestException, 3, 2000)
      ∧ makeRequestPolicy.stop_max_attempt_number = 3
      ∧ makeRequestPolicy.wait_fixed = 1000
      ∧ makeRequestPolicy.stop_max_delay = 5000
      ∧ 2 * makeRequestPolicy.wait_fixed ≤ makeRequestPolicy.stop_max_delay
      ∧ processXmlLink (fuel + 1) world url = (some 1, [], [url]) := by
  refine ⟨?_, rfl, rfl, rfl, by decide, ?_⟩
  · have h1 := hfail 1
    have h2 := hfail 2
    have h3 := hfail 3
    unfold retryCall
    unfold retryAux
    rw [h1]
    norm_num [makeRequestPolicy]
    unfold retryAux
    rw [h2]
    norm_num
    unfold retryAux
    rw [h3]
    norm_num
  · simp [processXmlLink, processStep, hw]

/-- Witness for C8: the always-failing request oracle and an all-failing
network. -/
theorem make_request_retry_then_fail_witness :
    retryCall makeRequestPolicy (fun _ => (.error .requestException : Except NetErr Unit)) =
        (.error .requestException, 3, 2000)
      ∧ processXmlLink 1 (fun _ => .netErr) "u" = (some 1, [], ["u"]) := by
  have h := make_request_retry_then_fail
    (fun _ => (.error .requestException : Except NetErr Unit))
    (fun _ => rfl) 0 (fun _ => .netErr) "u" rfl
  exact ⟨h.1, h.2.2.2.2.2⟩

/-- Try to match the pattern `l190-(\d{4})\.xml` at the head of the character
list, returning the captured four digits. -/
def matchYearAt : List Char → Option String
  | 'l' :: '1' :: '9' :: '0' :: '-' :: d1 :: d2 :: d3 :: d4 :: '.' :: 'x' :: 'm' :: 'l' :: _ =>
      if d1.isDigit && d2.isDigit && d3.isDigit && d4.isDigit then
        some (String.mk [d1, d2, d3, d4])
      else none
  | _ => none

/-- Leftmost-match search, as `re.search` does. -/
def searchYearChars : List Char → Option String
  | [] => none
  | c :: cs =>
    match matchYearAt (c :: cs) with
    | some y => some y
    | none => searchYearChars cs

/-- `re.search(r"l190-(\d{4})\.xml", input_filename)` with the captured
group: `some` of the four digits when the pattern occurs, else `none` (in
which case the Python `year` variable is never assigned). -/
def extract_year (s : String) : Option String :=
  searchYearChars s.toList

/-- Python `str.strip()`: drop whitespace from both ends. -/
def pyStrip (s : String) : String :=
  String.mk
    (((s.toList.dropWhile Char.isWhitespace).reverse.dropWhile Char.isWhitespace).reverse)

/-- Char-list prefix test (Python `str.startswith`). -/
def listStartsWith : List Char → List Char → Bool
  | _, [] => true
  | [], _ :: _ => false
  | c :: cs, p :: ps => c == p && listStartsWith cs ps

/-- `url = "http://" + url` applied when the url does not start with
`http`. -/
def fixUrl (u : String) : String :=
  if listStartsWith u.toList "http".toList then u else "http://" ++ u

/-- The field reads of the `comunicazione` loop body: `codiceFiscale` text
stripped (an absent element or `None` text raises `AttributeError`),
`ragioneSociale` text stripped with `""` for `None` text (but an absent
element raises), `url` text stripped. -/
def readComunicazione (c : Xml) : Except PyErr (String × String × String) :=
  match c.findChild "codiceFiscale" with
  | none => .error .attributeError
  | some ecf =>
    match ecf.text with
    | none => .error .attributeError
    | some cf =>
      match c.findChild "ragioneSociale" with
      | none => .error .attributeError
      | some ers =>
        let name :=
          match ers.text with
          | none => ""
          | some s => pyStrip s
        match c.findChild "url" with
        | none => .error .attributeError
        | some eu =>
          match eu.text with
          | none => .error .attributeError
          | some u => .ok (pyStrip cf, name, pyStrip u)

/-- One row of the status CSV:
`(year, cf_ente, name_ente, url, return_code)`. -/
abbrev StatusRow := String × String × String × String × Option Nat

/-- The `for i, comunicazione in enumerate(...)` driver loop.  A field error
on one entry is caught and `continue`s (no status row).  Each processed entry
fetches via `process_xml_link` FIRST and only then writes its status row;
when the `year` pattern was not found, that write reads the unassigned
Python variable `year` and raises an uncaught `NameError`, aborting the run
there — after the entry's fetches have already happened.  Returns the status
rows (or the aborting error) and the full fetch trace. -/
def mainLoop (fuel : Nat) (world : World) (year : Option String) :
    List Xml → Except PyErr (List StatusRow) × List String
  | [] => (.ok [], [])
  | c :: rest =>
    match readComunicazione c with
    | .error _ => mainLoop fuel world year rest
    | .ok (cf, name, u0) =>
      let url := fixUrl u0
      let r := processXmlLink fuel world url
      match year with
      | none => (.error .nameError, r.2.2)
      | some y =>
        let rest' := mainLoop fuel world year rest
        (rest'.1.map (fun tl => (y, cf, name, url, r.1) :: tl), r.2.2 ++ rest'.2)

/-- The `__main__` block after argument handling: derive `year` from the
input filename, iterate the root catalog's `comunicazione` children. -/
def mainRun (fuel : Nat) (world : World) (input_filename : String)
    (inputRoot : Xml) : Except PyErr (List StatusRow) × List String :=
  mainLoop fuel world (extract_year input_filename)
    (inputRoot.children.filter (fun c => c.tagOf == "comunicazione"))

/-- A root-catalog entry pointing at `http://u`. -/
def comC4 : Xml :=
  Xml.elem "comunicazione" none
    [Xml.elem "codiceFiscale" (some "CF1") [],
     Xml.elem "ragioneSociale" (some "Ente") [],
     Xml.elem "url" (some "http://u") []]

def catalogC4 : Xml := Xml.elem "root" none [comC4]

/-- Claim C4 is the intent but the code misses it: for an input source
identifier without the `l190-YYYY.xml` pattern, `year` is simply never
assigned (`if match:` has no else branch).  The run does NOT fail before
fetching: the first catalog entry's URL is fetched, and only the subsequent
status-row write crashes with an uncaught `NameError`; a catalog whose
entries never reach a status write completes with no error at all.  (The
pattern, when present, does yield the four-digit year.) -/
theorem year_missing_no_fail_fast :
    extract_year "input.xml" = none
      ∧ mainRun 1 worldUnknown "input.xml" catalogC4 = (.error .nameError, ["http://u"])
      ∧ mainRun 1 worldUnknown "input.xml" (Xml.elem "root" none []) = (.ok [], [])
      ∧ extract_year "l190-2013.xml" = some "2013" := by
  refine ⟨rfl, rfl, rfl, rfl⟩

lemma mainLoop_some_ok (fuel : Nat) (world : World) (y : String) :
    ∀ entries : List Xml, ∃ rows, (mainLoop fuel world (some y) entries).1 = .ok rows := by
  intro entries
  induction entries with
  | nil => exact ⟨[], rfl⟩
  | cons c rest ih =>
    obtain ⟨rows, hr⟩ := ih
    cases hc : readComunicazione c with
    | error e => exact ⟨rows, by simp [mainLoop, hc, hr]⟩
    | ok t =>
      obtain ⟨cf, name, u0⟩ := t
      exact ⟨(y, cf, name, fixUrl u0, (processXmlLink fuel world (fixUrl u0)).1) :: rows,
        by simp [mainLoop, hc, hr, Except.map]⟩

/-- Claim C9: per-URL failures are isolated.  First conjunct: inside a
dataset expansion, a link whose resolution fails (network code 1 or
processing code 2) does not stop the sibling links — every sibling after the
failing one is still fetched and its rows/trace still appear.  Second
conjunct: at the top level, whatever happens with one catalog entry (in
particular a failing seed URL), the remaining entries are still iterated and
produce exactly the status rows they would produce on their own. -/
theorem per_url_failures_isolated (fuel : Nat) (world : World) (url : String)
    (root : Xml) (ls1 ls2 : List (Option String)) (lbad : Option String)
    (hw : world url = .doc (some root))
    (hl : hasDescendant "lotto" root = false)
    (hd : hasDescendant "dataset" root = true)
    (hsplit : (datasetLinks root).filter (fun l => l ≠ some url) = ls1 ++ lbad :: ls2)
    (hbad : (processChildWith (processXmlLink fuel world) lbad).1 = some 1
        ∨ (processChildWith (processXmlLink fuel world) lbad).1 = some 2) :
    ((processXmlLink (fuel + 1) world url).2.2 =
        url :: (ls1.flatMap (fun l => (processChildWith (processXmlLink fuel world) l).2.2)
          ++ (processChildWith (processXmlLink fuel world) lbad).2.2
          ++ ls2.flatMap (fun l => (processChildWith (processXmlLink fuel world) l).2.2))
      ∧ (processXmlLink (fuel + 1) world url).1 = some 0)
      ∧ ∀ (y : String) (c : Xml) (rest : List Xml),
          ∃ pre restRows,
            (mainLoop fuel world (some y) rest).1 = .ok restRows
              ∧ (mainLoop fuel world (some y) (c :: rest)).1 = .ok (pre ++ restRows) := by
  constructor
  · have h := processXmlLink_dataset_eq fuel world url root hw hl hd
    rw [h, hsplit]
    constructor
    · simp
    · rfl
  · intro y c rest
    obtain ⟨restRows, hrest⟩ := mainLoop_some_ok fuel world y rest
    cases hc : readComunicazione c with
    | error e => exact ⟨[], restRows, hrest, by simp [mainLoop, hc, hrest]⟩
    | ok t =>
      obtain ⟨cf, name, u0⟩ := t
      exact ⟨[(y, cf, name, fixUrl u0, (processXmlLink fuel world (fixUrl u0)).1)],
        restRows, hrest, by simp [mainLoop, hc, hrest, Except.map]⟩

/-- A dataset document linking a failing URL and then a good lot URL. -/
def dsC9 : Xml :=
  Xml.elem "root" none
    [Xml.elem "dataset" none
      [Xml.elem "linkDataset" (some "bad") [],
       Xml.elem "linkDataset" (some "good") []]]

def worldC9 : World := fun u =>
  if u = "ds" then .doc (some dsC9)
  else if u = "good" then .doc (some (Xml.elem "r" none [lottoGood]))
  else .netErr

/-- Witness for C9: the failing link `bad` does not stop sibling `good`, and
the failing seed entry does not stop the iteration over the second entry. -/
theorem per_url_failures_isolated_witness :
    ((processXmlLink 2 worldC9 "ds").2.2 =
        "ds" :: (([] : List (Option String)).flatMap
            (fun l => (processChildWith (processXmlLink 1 worldC9) l).2.2)
          ++ (processChildWith (processXmlLink 1 worldC9) (some "bad")).2.2
          ++ [some "good"].flatMap
            (fun l => (processChildWith (processXmlLink 1 worldC9) l).2.2))
      ∧ (processXmlLink 2 worldC9 "ds").1 = some 0)
      ∧ ∃ pre restRows,
          (mainLoop 1 worldC9 (some "2013") [comC4]).1 = .ok restRows
            ∧ (mainLoop 1 worldC9 (some "2013") [comC4, comC4]).1 = .ok (pre ++ restRows) := by
  have h := per_url_failures_isolated 1 worldC9 "ds" dsC9 [] [some "good"] (some "bad")
    rfl (by decide) (by decide) rfl (Or.inl rfl)
  exact ⟨h.1, h.2 "2013" comC4 [comC4]⟩

/-- A heap of Python list objects, addressed by allocation index. -/
abbrev Store := List (List (Option String))

/-- A lot tuple whose `partecipanti`/`aggiudicatari` entries are references
into the `Store`, mirroring Python's aliasable list objects. -/
structure LotRecordRef where
  ente : Option String
  cf_ente : Option String
  cig : Option String
  partecipanti : Nat
  aggiudicatari : Nat

def lookupList (st : Store) (i : Nat) : List (Option String) :=
  st.getD i []

/-- `update_csv` at the heap level: reading a record's two lists, the
`aggiudicatari.copy()` of the implicit-participant branch allocates a fresh
list object (appended at the end of the store) and rebinds only the local
`partecipanti` name to it; iteration and the membership test then read list
contents.  No operation writes to an existing store cell. -/
def update_csv_store : Store → List LotRecordRef → Store × List OutputRow
  | st, [] => (st, [])
  | st, r :: rest =>
      let part := lookupList st r.partecipanti
      let agg := lookupList st r.aggiudicatari
      let allocate := agg.length > 0 && part.length == 0
      let st1 := if allocate then st ++ [agg] else st
      let iter := if allocate then lookupList st1 st.length else part
      let tail := update_csv_store st1 rest
      (tail.1,
        iter.map (fun p => ⟨r.ente, r.cf_ente, r.cig, p, if p ∈ agg then 1 else 0⟩)
          ++ tail.2)

lemma update_csv_store_ext :
    ∀ (data : List LotRecordRef) (st : Store),
      ∃ ext, (update_csv_store st data).1 = st ++ ext := by
  intro data
  induction data with
  | nil => intro st; exact ⟨[], by simp [update_csv_store]⟩
  | cons r rest ih =>
    intro st
    cases hb : (lookupList st r.aggiudicatari).length > 0
        && (lookupList st r.partecipanti).length == 0 with
    | false =>
      obtain ⟨ext, hext⟩ := ih st
      exact ⟨ext, by simp [update_csv_store, hb, hext]⟩
    | true =>
      obtain ⟨ext, hext⟩ := ih (st ++ [lookupList st r.aggiudicatari])
      refine ⟨[lookupList st r.aggiudicatari] ++ ext, ?_⟩
      simp [update_csv_store, hb, hext]

/-- Claim C10: `update_csv` leaves every input list object unchanged — the
store after the call extends the store before it, so every pre-existing list
(in particular each record's `partecipanti` and `aggiudicatari`) reads back
exactly as before; the implicit-participant substitution only allocates a
fresh copy. -/
theorem update_csv_store_frame (st : Store) (data : List LotRecordRef) :
    (∃ ext, (update_csv_store st data).1 = st ++ ext)
      ∧ ∀ i, i < st.length → ((update_csv_store st data).1)[i]? = st[i]? := by
  obtain ⟨ext, hext⟩ := update_csv_store_ext data st
  refine ⟨⟨ext, hext⟩, ?_⟩
  intro i hi
  rw [hext, List.getElem?_append, if_pos hi]

/-- Witness for C10: a record with an empty participant list and awardee list
`[W]` (the implicit-participant branch): after the call, both input cells
read back unchanged. -/
theorem update_csv_store_frame_witness :
    (∃ ext, (update_csv_store [[], [some "W"]]
        [⟨some "E", some "CF", some "CIG", 0, 1⟩]).1 = [[], [some "W"]] ++ ext)
      ∧ ((update_csv_store [[], [some "W"]]
        [⟨some "E", some "CF", some "CIG", 0, 1⟩]).1)[1]? = ([[], [some "W"]] : Store)[1]? := by
  have h := update_csv_store_frame [[], [some "W"]] [⟨some "E", some "CF", some "CIG", 0, 1⟩]
  exact ⟨h.1, h.2 1 (by decide)⟩
